import Mathlib

/-! Verification development for the PhilOCA scatter-to-grid interpolation and
classification engine (src/app.py and src/app-second.py): row filtering,
threshold classification, padded bounding box and grid construction,
interpolated field semantics, and descriptive statistics, shallowly embedded
as Lean definitions over exact rationals. -/

attribute [local semireducible] Rat.add Rat.sub Rat.mul Rat.inv Rat.ofScientific

/-- A raw table row restricted to the three columns the app selects
(`data[['latitude', 'longitude', parameter]]`); a missing cell is `none`. -/
structure RawRecord where
  latitude : Option ℚ
  longitude : Option ℚ
  param : Option ℚ
deriving DecidableEq

/-- A validated sample: one row of `map_data` after `dropna()`. -/
structure Sample where
  latitude : ℚ
  longitude : ℚ
  value : ℚ
deriving DecidableEq

/-- Embeds `map_data = data[['latitude', 'longitude', parameter]].dropna()`
(src/app.py line 79, src/app-second.py line 83): keep exactly the rows whose
three selected cells are all present. -/
def dropna (rows : List RawRecord) : List Sample :=
  rows.filterMap fun r =>
    match r.latitude, r.longitude, r.param with
    | some la, some lo, some v => some ⟨la, lo, v⟩
    | _, _, _ => none

/-- Embeds `above_threshold = values > threshold` (src/app.py line 87):
elementwise strict comparison mask. -/
def above_threshold (values : List ℚ) (threshold : ℚ) : List Bool :=
  values.map fun v => decide (v > threshold)

/-- Embeds `below_threshold = values <= threshold` (src/app.py line 88). -/
def below_threshold (values : List ℚ) (threshold : ℚ) : List Bool :=
  values.map fun v => decide (v ≤ threshold)

/-- Embeds `above_count = above_threshold.sum()` (src/app.py line 193). -/
def above_count (values : List ℚ) (threshold : ℚ) : ℕ :=
  (above_threshold values threshold).count true

/-- Embeds `below_count = below_threshold.sum()` (src/app.py line 196). -/
def below_count (values : List ℚ) (threshold : ℚ) : ℕ :=
  (below_threshold values threshold).count true

/-- Left-fold sum, as an accumulator loop over the series values. -/
def seriesSum (xs : List ℚ) : ℚ := xs.foldl (· + ·) 0

/-- Embeds `stats.mean()` (pandas `Series.mean`): sum divided by count. -/
def seriesMean (xs : List ℚ) : ℚ := seriesSum xs / xs.length

/-- Insert a value into an already sorted list, keeping it sorted. -/
def insertSorted (x : ℚ) : List ℚ → List ℚ
  | [] => [x]
  | y :: ys => if x ≤ y then x :: y :: ys else y :: insertSorted x ys

/-- Sort the series values ascending (insertion sort). -/
def sortValues (xs : List ℚ) : List ℚ := xs.foldr insertSorted []

/-- Embeds `stats.median()` (pandas `Series.median`): middle element of the
sorted values for odd count, mean of the two middle elements for even count. -/
def seriesMedian (xs : List ℚ) : ℚ :=
  let s := sortValues xs
  let n := s.length
  if n % 2 = 1 then s.getD (n / 2) 0
  else (s.getD (n / 2 - 1) 0 + s.getD (n / 2) 0) / 2

/-- Embeds the square of `stats.std()` (pandas `Series.std`, default
`ddof=1`): sum of squared deviations from the mean divided by `count - 1`
(Bessel's correction). The square is modelled since the square root of a
rational is in general irrational. -/
def seriesVar (xs : List ℚ) : ℚ :=
  ((xs.map fun x => (x - seriesMean xs) ^ 2).foldl (· + ·) 0) / ((xs.length : ℚ) - 1)

/-- Embeds `stats.min()` / `.min()` on a nonempty series: fold of `min`. -/
def seriesMin (xs : List ℚ) : ℚ :=
  match xs with
  | [] => 0
  | x :: rest => rest.foldl min x

/-- Embeds `stats.max()` / `.max()` on a nonempty series: fold of `max`. -/
def seriesMax (xs : List ℚ) : ℚ :=
  match xs with
  | [] => 0
  | x :: rest => rest.foldl max x

/-- Embeds `lat_min = lats.min()` (src/app-second.py line 91). -/
def lat_min (samples : List Sample) : ℚ := seriesMin (samples.map (·.latitude))

/-- Embeds `lat_max = lats.max()` (src/app-second.py line 91). -/
def lat_max (samples : List Sample) : ℚ := seriesMax (samples.map (·.latitude))

/-- Embeds `lon_min = lons.min()` (src/app-second.py line 92). -/
def lon_min (samples : List Sample) : ℚ := seriesMin (samples.map (·.longitude))

/-- Embeds `lon_max = lons.max()` (src/app-second.py line 92). -/
def lon_max (samples : List Sample) : ℚ := seriesMax (samples.map (·.longitude))

/-- Embeds `lat_padding = (lat_max - lat_min) * 0.05` (src/app-second.py
line 95). -/
def lat_padding (samples : List Sample) : ℚ :=
  (lat_max samples - lat_min samples) * 0.05

/-- Embeds `lon_padding = (lon_max - lon_min) * 0.05` (src/app-second.py
line 96). -/
def lon_padding (samples : List Sample) : ℚ :=
  (lon_max samples - lon_min samples) * 0.05

/-- Embeds `n_points = 200` (src/app-second.py line 99). -/
def n_points : ℕ := 200

/-- Embeds `numpy.linspace(a, b, n)` in exact arithmetic: the i-th of `n`
evenly spaced values from `a` to `b` inclusive. -/
def linspace (a b : ℚ) (n : ℕ) (i : ℕ) : ℚ :=
  a + (b - a) * i / ((n : ℚ) - 1)

/-- Embeds `grid_lat = np.linspace(lat_min - lat_padding, lat_max +
lat_padding, n_points)` (src/app-second.py line 100). -/
def grid_lat (samples : List Sample) (i : ℕ) : ℚ :=
  linspace (lat_min samples - lat_padding samples)
    (lat_max samples + lat_padding samples) n_points i

/-- Embeds `grid_lon = np.linspace(lon_min - lon_padding, lon_max +
lon_padding, n_points)` (src/app-second.py line 101). -/
def grid_lon (samples : List Sample) (j : ℕ) : ℚ :=
  linspace (lon_min samples - lon_padding samples)
    (lon_max samples + lon_padding samples) n_points j

/-- Embeds `np.meshgrid(grid_lon, grid_lat)` (src/app-second.py line 102):
the grid node at row `i`, column `j` is the coordinate pair
`(grid_lon[j], grid_lat[i])`, the `(x, y)` order in which `griddata` is
queried. -/
def gridNode (samples : List Sample) (i j : ℕ) : ℚ × ℚ :=
  (grid_lon samples j, grid_lat samples i)

/-- The coordinate of a sample in the `(lon, lat)` order in which the
sample points are passed to `griddata` (src/app-second.py line 106). -/
def samplePoint (s : Sample) : ℚ × ℚ := (s.longitude, s.latitude)

/-- Cross product of the vectors from `o` to `a` and from `o` to `b`. -/
def cross (o a b : ℚ × ℚ) : ℚ :=
  (a.1 - o.1) * (b.2 - o.2) - (a.2 - o.2) * (b.1 - o.1)

/-- Closed-triangle membership by the same-side sign test: `p` lies in the
closed triangle `a b c` when the three edge cross products all have the
same (weak) sign. -/
def inTriangle (a b c p : ℚ × ℚ) : Bool :=
  (decide (0 ≤ cross a b p) && decide (0 ≤ cross b c p) && decide (0 ≤ cross c a p)) ||
  (decide (cross a b p ≤ 0) && decide (cross b c p ≤ 0) && decide (cross c a p ≤ 0))

/-- All ordered triples of elements of a list. -/
def triples (l : List (ℚ × ℚ)) : List ((ℚ × ℚ) × (ℚ × ℚ) × (ℚ × ℚ)) :=
  l.flatMap fun a => l.flatMap fun b => l.map fun c => (a, b, c)

/-- Membership in the convex hull of a finite point set, by Caratheodory in
the plane: `p` is in the hull exactly when some nondegenerate (positive
area) triangle with vertices in the set contains `p`. Point sets with no
nondegenerate triangle (all collinear or fewer than three distinct points)
have a zero-area hull: no usable triangulation, so no point is a member. -/
def inHull (pts : List (ℚ × ℚ)) (p : ℚ × ℚ) : Bool :=
  (triples pts).any fun t =>
    decide (cross t.1 t.2.1 t.2.2 ≠ 0) && inTriangle t.1 t.2.1 t.2.2 p

/-- Modelled from the spec: `scipy.interpolate.griddata(..., method='cubic')`
(src/app-second.py lines 105-110) is third-party library code whose source is
not part of this repository. Following spec sections 3, 4.3 and 8, the
interpolant maps a query point outside the convex hull of the sample
coordinates to the undefined marker (`none`, never extrapolating), reproduces
the sample value at a sample coordinate, maps any other point inside the hull
to a defined finite value, and is a total function (degenerate geometry is
absorbed into the zero-area-hull case rather than raised as an error). -/
def griddata_cubic (samples : List Sample) (p : ℚ × ℚ) : Option ℚ :=
  if inHull (samples.map samplePoint) p then
    match samples.find? (fun s => decide (samplePoint s = p)) with
    | some s => some s.value
    | none => some (seriesMean (samples.map (·.value)))
  else
    none

/-- The single error condition the engine can surface (spec section 7). -/
inductive EngineError where
  | insufficientData
deriving DecidableEq

/-- Everything the success branch of the app computes: the interpolated
field over the grid, the threshold masks and counts, and the descriptive
statistics. -/
structure EngineResult where
  field : ℕ → ℕ → Option ℚ
  aboveMask : List Bool
  belowMask : List Bool
  meanValue : ℚ
  medianValue : ℚ
  stdSq : ℚ
  minValue : ℚ
  maxValue : ℚ
  aboveCount : ℕ
  belowCount : ℕ

/-- Embeds the request pipeline of both apps: filter the raw rows with
`dropna`, then run the full computation only under the `len(map_data) > 3`
guard (src/app.py line 81, src/app-second.py line 85); otherwise surface the
single insufficient-data condition and compute nothing else. -/
def runEngine (rows : List RawRecord) (threshold : ℚ) :
    Except EngineError EngineResult :=
  let map_data := dropna rows
  if map_data.length > 3 then
    let values := map_data.map (·.value)
    .ok { field := fun i j => griddata_cubic map_data (gridNode map_data i j)
          aboveMask := above_threshold values threshold
          belowMask := below_threshold values threshold
          meanValue := seriesMean values
          medianValue := seriesMedian values
          stdSq := seriesVar values
          minValue := seriesMin values
          maxValue := seriesMax values
          aboveCount := above_count values threshold
          belowCount := below_count values threshold }
  else
    .error .insufficientData

/-- A concrete raw table with four fully present rows. -/
def ex4rows : List RawRecord :=
  [⟨some 0, some 0, some 1⟩, ⟨some 0, some 1, some 2⟩,
   ⟨some 1, some 0, some 3⟩, ⟨some 1, some 1, some 4⟩]

/-- C1: with fewer than 4 validated samples the engine surfaces the single
insufficient-data condition and computes nothing else (the error branch
carries no field, classification or statistics); with 4 or more samples the
pipeline proceeds to a full result. -/
theorem c1_insufficient_data_guard (rows : List RawRecord) (threshold : ℚ) :
    ((dropna rows).length < 4 →
      runEngine rows threshold = .error .insufficientData) ∧
    (4 ≤ (dropna rows).length → (runEngine rows threshold).isOk = true) := by
  constructor
  · intro h
    have hng : ¬ (dropna rows).length > 3 := by omega
    simp [runEngine, hng]
  · intro h
    have hg : (dropna rows).length > 3 := by omega
    simp [runEngine, hg, Except.isOk, Except.toBool]

/-- Witness for C1: the empty table is rejected with the insufficient-data
condition, and a table of four valid rows proceeds to a result. -/
theorem c1_insufficient_data_guard_witness :
    runEngine [] 0 = .error .insufficientData ∧
      (runEngine ex4rows 0).isOk = true :=
  ⟨(c1_insufficient_data_guard [] 0).1 (by decide),
   (c1_insufficient_data_guard ex4rows 0).2 (by decide)⟩

lemma getD_map_decide (p : ℚ → Prop) [DecidablePred p] (values : List ℚ)
    (i : ℕ) (h : i < values.length) :
    (values.map fun v => decide (p v)).getD i false
      = decide (p (values.getD i 0)) := by
  rw [List.getD_eq_getElem?_getD, List.getD_eq_getElem?_getD,
    List.getElem?_map, List.getElem?_eq_getElem h]
  simp

/-- C2: the threshold classification puts index `i` in the above mask exactly
when its value strictly exceeds the threshold and in the below mask exactly
when its value is at most the threshold; the two masks are complementary
(total and disjoint partition), and a value exactly at the threshold is
classified below. -/
theorem c2_threshold_partition (values : List ℚ) (threshold : ℚ) (i : ℕ)
    (h : i < values.length) :
    ((above_threshold values threshold).getD i false = true ↔
      threshold < values.getD i 0) ∧
    ((below_threshold values threshold).getD i false = true ↔
      values.getD i 0 ≤ threshold) ∧
    ((above_threshold values threshold).getD i false
      = !(below_threshold values threshold).getD i false) ∧
    (values.getD i 0 = threshold →
      (below_threshold values threshold).getD i false = true ∧
      (above_threshold values threshold).getD i false = false) := by
  have ha : (above_threshold values threshold).getD i false
      = decide (threshold < values.getD i 0) :=
    getD_map_decide (fun v => threshold < v) values i h
  have hb : (below_threshold values threshold).getD i false
      = decide (values.getD i 0 ≤ threshold) :=
    getD_map_decide (fun v => v ≤ threshold) values i h
  have hnot : ∀ t v : ℚ, decide (t < v) = !decide (v ≤ t) := by
    intro t v
    rcases le_or_lt v t with hvt | hvt
    · simp [not_lt.mpr hvt, hvt]
    · simp [hvt, not_le.mpr hvt]
  refine ⟨by rw [ha]; exact decide_eq_true_iff,
    by rw [hb]; exact decide_eq_true_iff, ?_, ?_⟩
  · rw [ha, hb, hnot]
  · intro heq
    rw [ha, hb, heq]
    simp

/-- Witness for C2 at the boundary: a value exactly equal to the threshold
lands in the below mask and not in the above mask. -/
theorem c2_threshold_partition_witness :
    (below_threshold [5] 5).getD 0 false = true ∧
      (above_threshold [5] 5).getD 0 false = false :=
  (c2_threshold_partition [5] 5 0 (by decide)).2.2.2 (by decide)

lemma above_add_below_eq_length (values : List ℚ) (t : ℚ) :
    above_count values t + below_count values t = values.length := by
  induction values with
  | nil => rfl
  | cons v vs ih =>
    rcases le_or_lt v t with hv | hv
    · have h1 : decide (v > t) = false := decide_eq_false (not_lt.mpr hv)
      have h2 : decide (v ≤ t) = true := decide_eq_true hv
      simp [above_count, below_count, above_threshold, below_threshold,
        List.count_cons, h1, h2] at ih ⊢
      omega
    · have h1 : decide (v > t) = true := decide_eq_true hv
      have h2 : decide (v ≤ t) = false := decide_eq_false (not_le.mpr hv)
      simp [above_count, below_count, above_threshold, below_threshold,
        List.count_cons, h1, h2] at ih ⊢
      omega

/-- C8: whenever the validated sample count is positive, the above fraction
and the below fraction sum to exactly 1 in exact arithmetic, because every
sample is counted in exactly one of the two threshold classes. -/
theorem c8_fraction_sum (values : List ℚ) (t : ℚ) (h : 0 < values.length) :
    (above_count values t : ℚ) / values.length +
      (below_count values t : ℚ) / values.length = 1 := by
  have hsum : ((above_count values t : ℚ) + below_count values t)
      = (values.length : ℚ) := by
    exact_mod_cast congrArg (Nat.cast : ℕ → ℚ) (above_add_below_eq_length values t)
  have hn : (values.length : ℚ) ≠ 0 := (Nat.cast_pos.mpr h).ne'
  rw [div_add_div_same, hsum, div_self hn]

/-- Witness for C8 on the values 1,2,3,4 with threshold 2. -/
theorem c8_fraction_sum_witness :
    (above_count [1, 2, 3, 4] 2 : ℚ) / ([1, 2, 3, 4] : List ℚ).length +
      (below_count [1, 2, 3, 4] 2 : ℚ) / ([1, 2, 3, 4] : List ℚ).length = 1 :=
  c8_fraction_sum [1, 2, 3, 4] 2 (by decide)

lemma foldl_min_le_init (xs : List ℚ) (a : ℚ) : xs.foldl min a ≤ a := by
  induction xs generalizing a with
  | nil => simp
  | cons x t ih => exact le_trans (ih (min a x)) (min_le_left a x)

lemma foldl_min_le_mem (xs : List ℚ) (a y : ℚ) (hy : y ∈ xs) :
    xs.foldl min a ≤ y := by
  induction xs generalizing a with
  | nil => cases hy
  | cons x t ih =>
    rcases List.mem_cons.mp hy with h | h
    · subst h
      exact le_trans (foldl_min_le_init t (min a y)) (min_le_right a y)
    · exact ih (min a x) h

lemma foldl_min_mem (xs : List ℚ) (a : ℚ) :
    xs.foldl min a = a ∨ xs.foldl min a ∈ xs := by
  induction xs generalizing a with
  | nil => left; rfl
  | cons x t ih =>
    rcases ih (min a x) with h | h
    · rcases min_choice a x with hm | hm
      · left; rw [List.foldl_cons, h, hm]
      · right; rw [List.foldl_cons, h, hm]; exact List.mem_cons_self x t
    · right; exact List.mem_cons_of_mem x h

lemma foldl_max_le_init (xs : List ℚ) (a : ℚ) : a ≤ xs.foldl max a := by
  induction xs generalizing a with
  | nil => simp
  | cons x t ih => exact le_trans (le_max_left a x) (ih (max a x))

lemma foldl_max_le_mem (xs : List ℚ) (a y : ℚ) (hy : y ∈ xs) :
    y ≤ xs.foldl max a := by
  induction xs generalizing a with
  | nil => cases hy
  | cons x t ih =>
    rcases List.mem_cons.mp hy with h | h
    · subst h
      exact le_trans (le_max_right a y) (foldl_max_le_init t (max a y))
    · exact ih (max a x) h

lemma foldl_max_mem (xs : List ℚ) (a : ℚ) :
    xs.foldl max a = a ∨ xs.foldl max a ∈ xs := by
  induction xs generalizing a with
  | nil => left; rfl
  | cons x t ih =>
    rcases ih (max a x) with h | h
    · rcases max_choice a x with hm | hm
      · left; rw [List.foldl_cons, h, hm]
      · right; rw [List.foldl_cons, h, hm]; exact List.mem_cons_self x t
    · right; exact List.mem_cons_of_mem x h

lemma seriesMin_spec (xs : List ℚ) (h : xs ≠ []) :
    seriesMin xs ∈ xs ∧ ∀ y ∈ xs, seriesMin xs ≤ y := by
  match xs with
  | x :: rest =>
    have hdef : seriesMin (x :: rest) = rest.foldl min x := rfl
    constructor
    · rcases foldl_min_mem rest x with h1 | h1
      · rw [hdef, h1]; exact List.mem_cons_self x rest
      · rw [hdef]; exact List.mem_cons_of_mem x h1
    · intro y hy
      rcases List.mem_cons.mp hy with h1 | h1
      · rw [hdef, h1]; exact foldl_min_le_init rest x
      · rw [hdef]; exact foldl_min_le_mem rest x y h1

lemma seriesMax_spec (xs : List ℚ) (h : xs ≠ []) :
    seriesMax xs ∈ xs ∧ ∀ y ∈ xs, y ≤ seriesMax xs := by
  match xs with
  | x :: rest =>
    have hdef : seriesMax (x :: rest) = rest.foldl max x := rfl
    constructor
    · rcases foldl_max_mem rest x with h1 | h1
      · rw [hdef, h1]; exact List.mem_cons_self x rest
      · rw [hdef]; exact List.mem_cons_of_mem x h1
    · intro y hy
      rcases List.mem_cons.mp hy with h1 | h1
      · rw [hdef, h1]; exact foldl_max_le_init rest x
      · rw [hdef]; exact foldl_max_le_mem rest x y h1

lemma foldl_add_eq (xs : List ℚ) (a : ℚ) : xs.foldl (· + ·) a = a + xs.sum := by
  induction xs generalizing a with
  | nil => simp
  | cons x t ih => rw [List.foldl_cons, ih, List.sum_cons]; ring

lemma seriesSum_eq_sum (xs : List ℚ) : seriesSum xs = xs.sum := by
  rw [seriesSum, foldl_add_eq]; ring

lemma seriesMean_eq (xs : List ℚ) : seriesMean xs = xs.sum / xs.length := by
  rw [seriesMean, seriesSum_eq_sum]

lemma sum_of_all_eq (xs : List ℚ) (v : ℚ) (hall : ∀ x ∈ xs, x = v) :
    xs.sum = xs.length * v := by
  induction xs with
  | nil => simp
  | cons x t ih =>
    rw [List.sum_cons, List.length_cons,
      ih (fun y hy => hall y (List.mem_cons_of_mem x hy)),
      hall x (List.mem_cons_self x t)]
    push_cast
    ring

lemma seriesMean_const (xs : List ℚ) (v : ℚ) (h : xs ≠ [])
    (hall : ∀ x ∈ xs, x = v) : seriesMean xs = v := by
  have hn : (xs.length : ℚ) ≠ 0 := by
    have h0 : xs.length ≠ 0 := fun hc => h (List.length_eq_zero.mp hc)
    exact_mod_cast h0
  rw [seriesMean_eq, sum_of_all_eq xs v hall, mul_comm, mul_div_assoc,
    div_self hn, mul_one]

/-- C7: the statistics summary of a nonempty value series computes the
arithmetic mean (sum over count), the sample variance with Bessel's
correction (sum of squared deviations over count minus 1, the square of the
sample standard deviation), the minimum and the maximum; concretely on the
values 1, 2, 3, 4 the mean is 5/2, the median is 5/2, the min is 1, the max
is 4, and the variance is 5/3 (the Bessel divisor 3, not the population
divisor 4, which would give 5/4). -/
theorem c7_statistics :
    (∀ xs : List ℚ, xs ≠ [] →
      seriesMean xs = xs.sum / xs.length ∧
      seriesVar xs * ((xs.length : ℚ) - 1)
        = (xs.map fun x => (x - xs.sum / xs.length) ^ 2).sum ∧
      (seriesMin xs ∈ xs ∧ ∀ y ∈ xs, seriesMin xs ≤ y) ∧
      (seriesMax xs ∈ xs ∧ ∀ y ∈ xs, y ≤ seriesMax xs)) ∧
    seriesMean [1, 2, 3, 4] = 5/2 ∧
    seriesMedian [1, 2, 3, 4] = 5/2 ∧
    seriesVar [1, 2, 3, 4] = 5/3 ∧
    seriesMin [1, 2, 3, 4] = 1 ∧
    seriesMax [1, 2, 3, 4] = 4 := by
  refine ⟨?_, by decide, by decide, by decide, by decide, by decide⟩
  intro xs hxs
  refine ⟨seriesMean_eq xs, ?_, seriesMin_spec xs hxs, seriesMax_spec xs hxs⟩
  rw [seriesVar, foldl_add_eq, zero_add, seriesMean_eq]
  by_cases hone : xs.length = 1
  · match xs, hone with
    | [a], _ =>
      simp
  · have h0 : xs.length ≠ 0 := fun hc => hxs (List.length_eq_zero.mp hc)
    have h2 : 2 ≤ xs.length := by omega
    have h2q : (2 : ℚ) ≤ (xs.length : ℚ) := by exact_mod_cast h2
    have hne : ((xs.length : ℚ) - 1) ≠ 0 := by linarith
    exact div_mul_cancel₀ _ hne

/-- Witness for C7: the general characterization instantiated at the
concrete series 1, 2, 3, 4. -/
theorem c7_statistics_witness :
    seriesMean [1, 2, 3, 4]
      = ([1, 2, 3, 4] : List ℚ).sum / ([1, 2, 3, 4] : List ℚ).length ∧
    seriesVar [1, 2, 3, 4] * ((([1, 2, 3, 4] : List ℚ).length : ℚ) - 1)
      = (([1, 2, 3, 4] : List ℚ).map fun x =>
          (x - ([1, 2, 3, 4] : List ℚ).sum / ([1, 2, 3, 4] : List ℚ).length) ^ 2).sum ∧
    (seriesMin [1, 2, 3, 4] ∈ ([1, 2, 3, 4] : List ℚ) ∧
      ∀ y ∈ ([1, 2, 3, 4] : List ℚ), seriesMin [1, 2, 3, 4] ≤ y) ∧
    (seriesMax [1, 2, 3, 4] ∈ ([1, 2, 3, 4] : List ℚ) ∧
      ∀ y ∈ ([1, 2, 3, 4] : List ℚ), y ≤ seriesMax [1, 2, 3, 4]) :=
  c7_statistics.1 [1, 2, 3, 4] (by decide)

lemma linspace_zero (a b : ℚ) (n : ℕ) : linspace a b n 0 = a := by
  simp [linspace]

lemma linspace_last (a b : ℚ) : linspace a b n_points (n_points - 1) = b := by
  have hc : ((n_points - 1 : ℕ) : ℚ) = (n_points : ℚ) - 1 := by
    norm_num [n_points]
  have hne : ((n_points : ℚ) - 1) ≠ 0 := by norm_num [n_points]
  rw [linspace, hc, mul_div_assoc, div_self hne, mul_one]
  ring

lemma linspace_step (a b : ℚ) (n i : ℕ) :
    linspace a b n (i + 1) - linspace a b n i = (b - a) / ((n : ℚ) - 1) := by
  rw [linspace, linspace]
  push_cast
  ring

/-- A concrete validated sample set of four samples on the unit square. -/
def ex4samples : List Sample := [⟨0, 0, 1⟩, ⟨0, 1, 2⟩, ⟨1, 0, 3⟩, ⟨1, 1, 4⟩]

/-- C6: the bounding box is the min/max of latitude and of longitude over
the samples (each extreme is attained by a sample and bounds all samples),
expanded by 5% of each axis's span in both directions, and the grid is an
n-by-n lattice evenly spaced across the padded box: on each axis
independently the first node is the padded lower bound, the last node is the
padded upper bound, consecutive nodes differ by the constant step
(padded span) / (n - 1), and the meshgrid node (i, j) pairs the two axes. -/
theorem c6_grid_construction (samples : List Sample) (h : samples ≠ [])
    (i j : ℕ) :
    (lat_min samples ∈ samples.map (·.latitude) ∧
      ∀ y ∈ samples.map (·.latitude), lat_min samples ≤ y) ∧
    (lat_max samples ∈ samples.map (·.latitude) ∧
      ∀ y ∈ samples.map (·.latitude), y ≤ lat_max samples) ∧
    (lon_min samples ∈ samples.map (·.longitude) ∧
      ∀ y ∈ samples.map (·.longitude), lon_min samples ≤ y) ∧
    (lon_max samples ∈ samples.map (·.longitude) ∧
      ∀ y ∈ samples.map (·.longitude), y ≤ lon_max samples) ∧
    lat_padding samples = (lat_max samples - lat_min samples) * (5 / 100) ∧
    lon_padding samples = (lon_max samples - lon_min samples) * (5 / 100) ∧
    grid_lat samples 0 = lat_min samples - lat_padding samples ∧
    grid_lat samples (n_points - 1) = lat_max samples + lat_padding samples ∧
    grid_lon samples 0 = lon_min samples - lon_padding samples ∧
    grid_lon samples (n_points - 1) = lon_max samples + lon_padding samples ∧
    grid_lat samples (i + 1) - grid_lat samples i
      = ((lat_max samples + lat_padding samples)
          - (lat_min samples - lat_padding samples)) / ((n_points : ℚ) - 1) ∧
    grid_lon samples (j + 1) - grid_lon samples j
      = ((lon_max samples + lon_padding samples)
          - (lon_min samples - lon_padding samples)) / ((n_points : ℚ) - 1) ∧
    gridNode samples i j = (grid_lon samples j, grid_lat samples i) := by
  have hmap : ∀ f : Sample → ℚ, samples.map f ≠ [] := by
    intro f hc
    exact h (List.map_eq_nil_iff.mp hc)
  have hpad : lat_padding samples
      = (lat_max samples - lat_min samples) * (5 / 100) := by
    rw [lat_padding]
    norm_num
  have hpad2 : lon_padding samples
      = (lon_max samples - lon_min samples) * (5 / 100) := by
    rw [lon_padding]
    norm_num
  exact ⟨seriesMin_spec _ (hmap _), seriesMax_spec _ (hmap _),
    seriesMin_spec _ (hmap _), seriesMax_spec _ (hmap _), hpad, hpad2,
    linspace_zero _ _ _, linspace_last _ _, linspace_zero _ _ _,
    linspace_last _ _, linspace_step _ _ _ _, linspace_step _ _ _ _, rfl⟩

/-- Witness for C6: the bounding-box minimum characterization at a concrete
sample set. -/
theorem c6_grid_construction_witness :
    lat_min ex4samples ∈ ex4samples.map (·.latitude) ∧
      ∀ y ∈ ex4samples.map (·.latitude), lat_min ex4samples ≤ y :=
  (c6_grid_construction ex4samples (by decide) 0 0).1

/-- A validated sample set whose latitude span is zero: all four samples
share latitude 10. -/
def ex5 : List Sample := [⟨10, 0, 1⟩, ⟨10, 1, 2⟩, ⟨10, 2, 3⟩, ⟨10, 3, 4⟩]

/-- C5 counterexample: for the zero-latitude-span sample set `ex5` the
latitude padding is 0 — not a positive absolute minimum epsilon — and the
padded box is empty on that axis: the first and last grid latitudes both
collapse to the shared latitude 10, a zero-area box. -/
theorem c5_zero_span_counterexample :
    ¬ (0 < lat_padding ex5) ∧ lat_padding ex5 = 0 ∧
      grid_lat ex5 0 = 10 ∧ grid_lat ex5 (n_points - 1) = 10 := by decide

/-- C5 amended: padding is exactly 5% of the axis span with no minimum
epsilon, so when an axis span is zero the padding on that axis is zero and
every grid coordinate on that axis collapses to the shared value: the
padded box degenerates to a zero-area box on that axis. -/
theorem c5_zero_span_amended (samples : List Sample) :
    (lat_max samples = lat_min samples →
      lat_padding samples = 0 ∧ ∀ i, grid_lat samples i = lat_min samples) ∧
    (lon_max samples = lon_min samples →
      lon_padding samples = 0 ∧ ∀ j, grid_lon samples j = lon_min samples) := by
  constructor
  · intro hspan
    have hp : lat_padding samples = 0 := by rw [lat_padding, hspan]; ring
    refine ⟨hp, fun i => ?_⟩
    rw [grid_lat, hspan, hp, linspace]
    ring
  · intro hspan
    have hp : lon_padding samples = 0 := by rw [lon_padding, hspan]; ring
    refine ⟨hp, fun j => ?_⟩
    rw [grid_lon, hspan, hp, linspace]
    ring

/-- Witness for C5 amended: applied to the zero-latitude-span set `ex5`. -/
theorem c5_zero_span_amended_witness :
    lat_padding ex5 = 0 ∧ ∀ i, grid_lat ex5 i = lat_min ex5 :=
  (c5_zero_span_amended ex5).1 (by decide)

/-- A raw table of four fully present rows, one of which carries the
out-of-range latitude 200. -/
def c9rows : List RawRecord :=
  [⟨some 200, some 0, some 1⟩, ⟨some 0, some 1, some 2⟩,
   ⟨some 1, some 0, some 3⟩, ⟨some 1, some 1, some 4⟩]

/-- C9 counterexample: a raw record with latitude 200 — present but far
outside [-90, 90] — still becomes a Sample (the filter only drops missing
cells), and the engine accepts the resulting 4-sample set, so the claimed
range invariant does not hold for the sample set the downstream components
consume. -/
theorem c9_range_counterexample :
    (runEngine c9rows 0).isOk = true ∧
      ¬ (∀ s ∈ dropna c9rows, -90 ≤ s.latitude ∧ s.latitude ≤ 90) := by decide

/-- C9 amended: the validation filter enforces only presence, not range:
every Sample comes from a raw record whose three cells are all present and
carries exactly those cell values, and conversely every raw record with all
three cells present becomes a Sample — with no check that latitude lies in
[-90, 90] or longitude in [-180, 180], so out-of-range coordinates enter
the engine. -/
theorem c9_missing_fields_amended (rows : List RawRecord) :
    (∀ s ∈ dropna rows, ∃ r ∈ rows,
      r.latitude = some s.latitude ∧ r.longitude = some s.longitude ∧
        r.param = some s.value) ∧
    (∀ r ∈ rows, ∀ la lo v : ℚ, r.latitude = some la →
      r.longitude = some lo → r.param = some v →
      (⟨la, lo, v⟩ : Sample) ∈ dropna rows) := by
  constructor
  · intro s hs
    rw [dropna] at hs
    rcases List.mem_filterMap.mp hs with ⟨r, hr, hmap⟩
    refine ⟨r, hr, ?_⟩
    rcases hla : r.latitude with _ | la <;>
      rcases hlo : r.longitude with _ | lo <;>
      rcases hv : r.param with _ | v <;>
      rw [hla, hlo, hv] at hmap <;>
      simp only [Option.some.injEq, reduceCtorEq] at hmap
    rw [← hmap]
    exact ⟨rfl, rfl, rfl⟩
  · intro r hr la lo v hla hlo hv
    rw [dropna]
    refine List.mem_filterMap.mpr ⟨r, hr, ?_⟩
    rw [hla, hlo, hv]

/-- Witness for C9 amended: the out-of-range row of `c9rows` produces the
sample with latitude 200 in the validated set. -/
theorem c9_missing_fields_amended_witness :
    (⟨200, 0, 1⟩ : Sample) ∈ dropna c9rows :=
  (c9_missing_fields_amended c9rows).2 ⟨some 200, some 0, some 1⟩
    (by decide) 200 0 1 rfl rfl rfl

lemma mem_of_mem_triples (l : List (ℚ × ℚ))
    (t : (ℚ × ℚ) × (ℚ × ℚ) × (ℚ × ℚ)) (ht : t ∈ triples l) :
    t.1 ∈ l ∧ t.2.1 ∈ l ∧ t.2.2 ∈ l := by
  rw [triples] at ht
  rcases List.mem_flatMap.mp ht with ⟨a, ha, ht⟩
  rcases List.mem_flatMap.mp ht with ⟨b, hb, ht⟩
  rcases List.mem_map.mp ht with ⟨c, hc, rfl⟩
  exact ⟨ha, hb, hc⟩

/-- The 5-point configuration of spec section 8: the unit square corners
with values 0, 10, 10, 0 and the center with value 5. -/
def ex10 : List Sample :=
  [⟨0, 0, 0⟩, ⟨1, 0, 10⟩, ⟨0, 1, 10⟩, ⟨1, 1, 0⟩, ⟨1/2, 1/2, 5⟩]

/-- C3: for a validated sample set of at least 4 points, every grid node
outside the convex hull of the sample coordinates receives the undefined
("no estimate") marker — the interpolant never extrapolates — and every
grid node inside the hull receives a defined value. -/
theorem c3_no_extrapolation (samples : List Sample) (h4 : 4 ≤ samples.length)
    (i j : ℕ) :
    (inHull (samples.map samplePoint) (gridNode samples i j) = false →
      griddata_cubic samples (gridNode samples i j) = none) ∧
    (inHull (samples.map samplePoint) (gridNode samples i j) = true →
      ∃ q : ℚ, griddata_cubic samples (gridNode samples i j) = some q) := by
  constructor
  · intro hout
    simp [griddata_cubic, hout]
  · intro hin
    rcases hf : samples.find?
        (fun s => decide (samplePoint s = gridNode samples i j)) with _ | s
    · exact ⟨seriesMean (samples.map (·.value)),
        by simp [griddata_cubic, hin, hf]⟩
    · exact ⟨s.value, by simp [griddata_cubic, hin, hf]⟩

/-- Witness for C3 on the 5-point configuration: the padded corner grid
node (0, 0) lies outside the hull and gets no estimate, while the central
grid node (100, 100) lies inside and gets a defined value. -/
theorem c3_no_extrapolation_witness :
    griddata_cubic ex10 (gridNode ex10 0 0) = none ∧
      ∃ q : ℚ, griddata_cubic ex10 (gridNode ex10 100 100) = some q :=
  ⟨(c3_no_extrapolation ex10 (by decide) 0 0).1 (by decide),
   (c3_no_extrapolation ex10 (by decide) 100 100).2 (by decide)⟩

/-- A degenerate sample set with a duplicated coordinate: two samples share
the coordinate (0, 0) with distinct values 0 and 10, and the remaining two
samples span a nondegenerate triangle. -/
def exDup : List Sample := [⟨0, 0, 0⟩, ⟨0, 0, 10⟩, ⟨0, 1, 0⟩, ⟨1, 0, 10⟩]

/-- C4 counterexample: the duplicate-coordinate degenerate set `exDup` (4
samples, duplicated coordinate) yields a field that is neither entirely
undefined nor flat: the duplicated sample coordinate maps to the defined
value 0 while the interior point (1/4, 1/4) maps to the defined value 5, so
the claimed entirely-no-estimate-or-flat dichotomy fails for it. -/
theorem c4_degenerate_counterexample :
    4 ≤ exDup.length ∧ ¬ (exDup.map samplePoint).Nodup ∧
    griddata_cubic exDup (0, 0) = some 0 ∧
    griddata_cubic exDup (1/4, 1/4) = some 5 ∧
    ¬ ((∀ p : ℚ × ℚ, griddata_cubic exDup p = none) ∨
       (∀ p q : ℚ × ℚ, ∀ a b : ℚ, griddata_cubic exDup p = some a →
          griddata_cubic exDup q = some b → a = b)) := by
  refine ⟨by decide, by decide, by decide, by decide, ?_⟩
  intro h
  rcases h with h | h
  · have hnone := h (0, 0)
    rw [show griddata_cubic exDup (0, 0) = some 0 from by decide] at hnone
    cases hnone
  · have heq : (0 : ℚ) = 5 :=
      h (0, 0) (1/4, 1/4) 0 5 (by decide) (by decide)
    exact absurd heq (by norm_num)

/-- C4 amended: the interpolator is a total function — degenerate geometry
never raises and a Field is always returned. When all sample coordinates
are collinear (every triple has zero cross product, a zero-area hull) the
returned field is entirely undefined; when all sample values are equal the
field is flat: every point maps to either the undefined marker or that
single shared value. A degenerate set with duplicated coordinates but
distinct values is not covered by the dichotomy: it still yields a total
field, but one that may take several distinct defined values. -/
theorem c4_degenerate_inputs (samples : List Sample) (v : ℚ) :
    (∀ p : ℚ × ℚ, griddata_cubic samples p = none ∨
      ∃ q : ℚ, griddata_cubic samples p = some q) ∧
    ((∀ a ∈ samples.map samplePoint, ∀ b ∈ samples.map samplePoint,
        ∀ c ∈ samples.map samplePoint, cross a b c = 0) →
      ∀ p : ℚ × ℚ, griddata_cubic samples p = none) ∧
    (samples ≠ [] → (∀ s ∈ samples, s.value = v) →
      ∀ p : ℚ × ℚ, griddata_cubic samples p = none ∨
        griddata_cubic samples p = some v) := by
  refine ⟨?_, ?_, ?_⟩
  · intro p
    cases hres : griddata_cubic samples p with
    | none => exact Or.inl rfl
    | some q => exact Or.inr ⟨q, rfl⟩
  · intro hcol p
    have hhull : inHull (samples.map samplePoint) p = false := by
      rw [inHull, List.any_eq_false]
      intro t ht
      rcases mem_of_mem_triples _ t ht with ⟨h1, h2, h3⟩
      have hc : cross t.1 t.2.1 t.2.2 = 0 := hcol _ h1 _ h2 _ h3
      simp [hc]
    simp [griddata_cubic, hhull]
  · intro hne hval p
    cases hhull : inHull (samples.map samplePoint) p with
    | false =>
      left
      simp [griddata_cubic, hhull]
    | true =>
      right
      rcases hf : samples.find? (fun s => decide (samplePoint s = p)) with _ | s
      · have hmean : seriesMean (samples.map (·.value)) = v := by
          apply seriesMean_const
          · intro hc
            exact hne (List.map_eq_nil_iff.mp hc)
          · intro x hx
            rcases List.mem_map.mp hx with ⟨s, hs, rfl⟩
            exact hval s hs
        simp [griddata_cubic, hhull, hf, hmean]
      · have hs : s ∈ samples := List.mem_of_find?_eq_some hf
        simp [griddata_cubic, hhull, hf, hval s hs]

/-- A degenerate sample set: all four sample coordinates are collinear. -/
def exCol : List Sample := [⟨0, 0, 1⟩, ⟨1, 1, 2⟩, ⟨2, 2, 3⟩, ⟨3, 3, 4⟩]

/-- A degenerate sample set: all four sample values are equal. -/
def exFlat : List Sample := [⟨0, 0, 7⟩, ⟨0, 1, 7⟩, ⟨1, 0, 7⟩, ⟨1, 1, 7⟩]

/-- Witness for C4 amended: the interpolator returns a (possibly
undefined) field value at a concrete point of the duplicated-coordinate
set, the collinear set yields no estimate (even at a sample coordinate),
and the constant-valued set yields a flat field at the center of its
square. -/
theorem c4_degenerate_inputs_witness :
    (griddata_cubic exDup (0, 0) = none ∨
      ∃ q : ℚ, griddata_cubic exDup (0, 0) = some q) ∧
    griddata_cubic exCol (0, 0) = none ∧
      (griddata_cubic exFlat (1/2, 1/2) = none ∨
        griddata_cubic exFlat (1/2, 1/2) = some 7) :=
  ⟨(c4_degenerate_inputs exDup 0).1 (0, 0),
   (c4_degenerate_inputs exCol 0).2.1 (by decide) (0, 0),
   (c4_degenerate_inputs exFlat 7).2.2 (by decide) (by decide) (1/2, 1/2)⟩

/-- C10: on the unit-square-plus-center configuration with values 0, 10,
10, 0 and center value 5, the interpolated field at the center (1/2, 1/2)
is exactly 5; in general, at any query point inside the hull that coincides
with a sample coordinate, the interpolant reproduces a sample value taken
at that coordinate. -/
theorem c10_sample_reproduction :
    griddata_cubic ex10 (1/2, 1/2) = some 5 ∧
    ∀ (samples : List Sample) (p : ℚ × ℚ),
      inHull (samples.map samplePoint) p = true →
      (∃ s ∈ samples, samplePoint s = p) →
      ∃ s ∈ samples, samplePoint s = p ∧
        griddata_cubic samples p = some s.value := by
  refine ⟨by decide, ?_⟩
  intro samples p hin hex
  have hsome : (samples.find? (fun s => decide (samplePoint s = p))).isSome := by
    rw [List.find?_isSome]
    rcases hex with ⟨s, hs, hsp⟩
    exact ⟨s, hs, by simp [hsp]⟩
  rcases hf : samples.find? (fun s => decide (samplePoint s = p)) with _ | s
  · rw [hf] at hsome
    simp at hsome
  · have hmem : s ∈ samples := List.mem_of_find?_eq_some hf
    have hsp : samplePoint s = p := by
      have hpred := List.find?_some hf
      simpa using hpred
    exact ⟨s, hmem, hsp, by simp [griddata_cubic, hin, hf]⟩

/-- Witness for C10's general part: at the center of the 5-point
configuration the interpolant returns the value of the sample placed
there. -/
theorem c10_sample_reproduction_witness :
    ∃ s ∈ ex10, samplePoint s = ((1 : ℚ)/2, (1 : ℚ)/2) ∧
      griddata_cubic ex10 ((1 : ℚ)/2, (1 : ℚ)/2) = some s.value :=
  c10_sample_reproduction.2 ex10 (1/2, 1/2) (by decide) (by decide)
